import Mathlib

/-!
Verification of the thormotion command dispatch and transport layer.

Each definition is a shallow embedding of the corresponding Rust item,
translated from the repository source.  Machine integers are modelled as
`Nat` with explicit `% 2 ^ w` where the source performs a truncating cast;
fallible code returns `Option` or `Except`; the `global_abort` /
`panic!` paths are represented by explicit outcome constructors.
-/

namespace Thormotion

/-! ### Command framing — `src/messages/utils.rs` -/

/-- Identifier for generic USB units (`const DEVICE: u8 = 0x50`). -/
def DEVICE : Nat := 0x50

/-- Identifier for the host (`const HOST: u8 = 0x01`). -/
def HOST : Nat := 0x01

/-- Function `short(id, param_one, param_two)`: the six-byte header-only command
`vec![id[0], id[1], param_one, param_two, DEVICE, HOST]`. -/
def short (id : Nat × Nat) (paramOne paramTwo : Nat) : List Nat :=
  [id.1, id.2, paramOne, paramTwo, DEVICE, HOST]

/-- Function `long(id, data)`: header-plus-payload command
`[&id, &(data.len() as u16).to_le_bytes(), &[DEVICE | 0x80, HOST], data].concat()`.
The `as u16` cast is modelled as reduction modulo `2 ^ 16`; `to_le_bytes`
of the 16-bit value `v` is `[v % 256, v / 256]`. -/
def long (id : Nat × Nat) (data : List Nat) : List Nat :=
  [id.1, id.2, data.length % 65536 % 256, data.length % 65536 / 256,
    Nat.lor DEVICE 0x80, HOST] ++ data

/-! ### Serial-number validation — `src/traits/check_serial_number.rs` -/

/-- Error type `error::sn::Error::Invalid(String)`, the error returned for a rejected
serial number. -/
inductive SnError where
  | invalid (serialNumber : List Char)
  deriving DecidableEq

/-- Function `check_serial_number(serial_number) -> Result<(), Error>`:
accepts exactly when the serial starts with the model-specific
`SERIAL_NUMBER_PREFIX`, has length 8, and every character satisfies
`char::is_numeric`.  Strings are modelled as `List Char` and the Unicode
predicate `char::is_numeric` is a parameter (`isNumeric`); on the ASCII
range it coincides with `Char.isDigit`. -/
def check_serial_number (isNumeric : Char → Bool) (expected : List Char)
    (serialNumber : List Char) : Except SnError Unit :=
  if expected.isPrefixOf serialNumber
      && serialNumber.length == 8
      && serialNumber.all isNumeric
  then Except.ok ()
  else Except.error (SnError.invalid serialNumber)

/-! ### Dispatcher slots — `src/messages/dispatcher.rs`

The `Dispatcher` map `HashMap<[u8; 2], Mutex<Option<Sender>>>` is modelled
as an association list from two-byte command IDs to optional sender
tokens.  The key set is fixed at construction, so lookups of unknown IDs
correspond to `Dispatcher::get`'s `global_abort` path (`Option.none`
results below). -/

/-- A two-byte command ID. -/
abbrev Id2 := Nat × Nat

/-- The per-device waiter-slot map: command ID → `Option<Sender>`.
Senders are modelled by opaque tokens (`Nat`). -/
abbrev Slots := List (Id2 × Option Nat)

/-- Lookup of a slot by command ID.  `none` means the ID is not a key of
the map (in the source, `Dispatcher::get` then calls `global_abort`). -/
def lookupSlot (m : Slots) (id : Id2) : Option (Option Nat) :=
  match m with
  | [] => none
  | (k, v) :: rest => if k = id then some v else lookupSlot rest id

/-- Overwrite the slot stored under `id` (a no-op on keys that are
absent, mirroring the fixed key set of the map). -/
def setSlot (m : Slots) (id : Id2) (v : Option Nat) : Slots :=
  match m with
  | [] => []
  | (k, w) :: rest => if k = id then (k, v) :: rest else (k, w) :: setSlot rest id v

/-- Enum `Provenance`: whether the returned receiver is bound to a new or an
existing sender.  Receivers are identified by the sender token their
channel belongs to. -/
inductive Provenance where
  | New (rx : Nat)
  | Existing (rx : Nat)
  deriving DecidableEq

namespace Dispatcher

/-- Method `Dispatcher::receiver(id)`: if the slot holds `None`, install a fresh
broadcast sender (token `fresh`) and return `Provenance::New`; if it holds
`Some(sender)`, return `Provenance::Existing` without modifying the map.
`none` is the `Dispatcher::get` abort path for an unregistered ID. -/
def receiver (m : Slots) (id : Id2) (fresh : Nat) : Option (Slots × Provenance) :=
  match lookupSlot m id with
  | none => none
  | some none => some (setSlot m id (some fresh), Provenance.New fresh)
  | some (some tx) => some (m, Provenance.Existing tx)

/-- Method `Dispatcher::take(id)`: remove and return the slot's sender, leaving
`None` behind.  `none` is the `Dispatcher::get` abort path. -/
def take (m : Slots) (id : Id2) : Option (Slots × Option Nat) :=
  match lookupSlot m id with
  | none => none
  | some w => some (setSlot m id none, w)

/-- Method `Dispatcher::dispatch(command)`: read the ID from the first two bytes,
`take` the sender out of its slot, and broadcast the frame to it if one
was present.  The returned pair is the new slot map together with the
broadcast event `(senderToken, frameBytes)` (or `none` when the frame is
silently dropped).  The outer `none` covers the panicking paths (frame
shorter than two bytes, or unregistered ID). -/
def dispatch (m : Slots) (command : List Nat) : Option (Slots × Option (Nat × List Nat)) :=
  match command with
  | b0 :: b1 :: _ =>
    match take m (b0, b1) with
    | none => none
    | some (m', some tx) => some (m', some (tx, command))
    | some (m', none) => some (m', none)
  | _ => none

end Dispatcher

/-! ### Device status — `src/devices/usb_primitive/status.rs` and
`src/devices/usb_primitive/mod.rs` -/

/-- The `Communicator` as far as `close` observes it: it owns a clone of
the device's `Dispatcher` (`Communicator::get_dispatcher`). -/
structure Communicator where
  dispatcher : Slots
  deriving DecidableEq

/-- Enum `Status`: `Open` holds an active `Communicator`, `Closed` holds the
idle `Dispatcher`. -/
inductive Status where
  | Open (communicator : Communicator)
  | Closed (dispatcher : Slots)
  deriving DecidableEq

/-- Type `std::io::Error` as far as `UsbPrimitive::close`'s signature is
concerned. -/
inductive IoError where
  | osError (code : Nat)
  deriving DecidableEq

namespace UsbPrimitive

/-- Method `UsbPrimitive::close`: under the status write lock, if the status is
`Open(communicator)` replace it by `Closed(communicator.get_dispatcher())`;
otherwise take no action.  Returns `Ok(())`. -/
def close (status : Status) : Status × Except IoError Unit :=
  match status with
  | Status.Open communicator => (Status.Closed communicator.dispatcher, Except.ok ())
  | Status.Closed dispatcher => (Status.Closed dispatcher, Except.ok ())

end UsbPrimitive

/-! ### The inbound reassembly task —
`src/devices/usb_primitive/communicator.rs`, `Communicator::spawn`

The background task skips the two FTDI prefix bytes of every completed
bulk-IN transfer of more than two bytes, appends the remainder to a ring
buffer (`queue : VecDeque<u8>`), and repeatedly drains whole frames whose
length is obtained from the descriptor table.

The descriptor table `Dispatcher::length` is modelled from the spec:
`Dispatcher<CH>::length` itself is not among the source files (only its
caller in `Communicator::spawn` is); per §4.3/§4.1 it delegates to the
per-ID descriptor table and global-aborts on an unknown ID.  It is
represented by a function `tbl : Id2 → Option Nat` where `none` is the
unknown-ID global-abort path. -/

/-- Result of running (a piece of) the inbound task.

* `ok queue dispatched` — the loop is waiting for more data; `queue` is
  the residual ring buffer, `dispatched` the frames handed to
  `Dispatcher::dispatch` so far, in order.
* `abort` — the descriptor lookup failed: the task invoked
  `global_abort` (Dispatcher does not contain the command ID).
* `spin` — fuel exhausted; surrogate for a non-terminating inner loop
  (only reachable if the table maps an ID to a length of zero). -/
inductive RunResult where
  | ok (queue : List Nat) (dispatched : List (List Nat))
  | abort
  | spin
  deriving DecidableEq

/-- The inner `while queue.get(5).is_some()` loop of the inbound task:
while at least six bytes (a full header) are buffered, look up the frame
length for the leading two-byte ID, and if the whole frame is buffered,
drain it and dispatch it.  Structured on explicit fuel; each drain
consumes at least six bytes, so `queue.length + 1` fuel always suffices
for tables whose lengths are at least six. -/
def reassemble (tbl : Id2 → Option Nat) : Nat → List Nat → List (List Nat) → RunResult
  | 0, _, _ => RunResult.spin
  | fuel + 1, queue, dispatched =>
    if 6 ≤ queue.length then
      match tbl (queue.getD 0 0, queue.getD 1 0) with
      | none => RunResult.abort
      | some len =>
        if queue.length < len then RunResult.ok queue dispatched
        else reassemble tbl fuel (queue.drop len) (dispatched ++ [queue.take len])
    else RunResult.ok queue dispatched

/-- One pass of the outer loop per completed transfer (`listen`): if
fewer than three bytes arrived the transfer payload is discarded whole;
otherwise the two FTDI prefix bytes are skipped, the rest is appended to
the ring buffer, and the inner loop drains whole frames. -/
def listen (tbl : Id2 → Option Nat) :
    List (List Nat) → List Nat → List (List Nat) → RunResult
  | [], queue, dispatched => RunResult.ok queue dispatched
  | buffer :: rest, queue, dispatched =>
    if 2 < buffer.length then
      match reassemble tbl ((queue ++ buffer.drop 2).length + 1)
          (queue ++ buffer.drop 2) dispatched with
      | RunResult.ok queue' dispatched' => listen tbl rest queue' dispatched'
      | r => r
    else listen tbl rest queue dispatched

/-- A well-formed frame for descriptor table `tbl`: at least a full
header, and its ID is registered with exactly the frame's length. -/
def WfFrame (tbl : Id2 → Option Nat) (f : List Nat) : Prop :=
  6 ≤ f.length ∧ tbl (f.getD 0 0, f.getD 1 0) = some f.length

instance (tbl : Id2 → Option Nat) (f : List Nat) : Decidable (WfFrame tbl f) :=
  inferInstanceAs (Decidable (6 ≤ f.length ∧ tbl (f.getD 0 0, f.getD 1 0) = some f.length))

/-- The residual ring buffer `q` is a proper leftover against the
remaining frame stream `gs`: it is a prefix of the concatenation of `gs`
and strictly shorter than the first remaining frame. -/
def ShortRem (gs : List (List Nat)) (q : List Nat) : Prop :=
  (∃ t, q ++ t = gs.flatten) ∧ ∀ g gt, gs = g :: gt → q.length < g.length

/-! ### Global abort and the device registry — `src/devices/utils.rs` -/

/-- The observable outcome of `global_abort`: which callbacks ran (in
drain order), the registry contents afterwards, and the terminal panic.
The Rust function has return type `!`; `panicked` records that the only
exit is `panic!`. -/
structure AbortOutcome where
  invoked : List Nat
  registryAfter : List (String × Nat)
  panicked : Bool
  message : String
  deriving DecidableEq

/-- Function `global_abort(message) -> !`: drain the global `DEVICES` map, invoke
every registered abort callback, then `panic!` with the message.
Callbacks are modelled by opaque tokens (`Nat`). -/
def global_abort (registry : List (String × Nat)) (message : String) : AbortOutcome :=
  { invoked := registry.map Prod.snd
    registryAfter := []
    panicked := true
    message := message }

/-! ### `home` — `src/functions/home.rs`, `__home` -/

/-- The `const ID: [u8; 2] = [0x44, 0x04]` used by `__home` both for the
receiver and for the outbound command. -/
def homeId : Id2 := (0x44, 0x04)

/-- The command ID whose next inbound frame `__home` awaits
(`device.inner().new_receiver(&ID)`). -/
def homeAwaitId : Id2 := homeId

/-- The frame `__home` submits to the outbound endpoint:
`short(ID, channel, 0)`. -/
def homeCommand (channel : Nat) : List Nat :=
  short homeId channel 0

/-! ### Channel enable state — `src/functions/channel_enable_state.rs` -/

/-- Constant `SET: [u8; 2] = [0x10, 0x02]` (MOT_SET_CHANENABLESTATE). -/
def SET_CHANENABLESTATE : Id2 := (0x10, 0x02)

/-- Constant `REQ: [u8; 2] = [0x11, 0x02]` (MOT_REQ_CHANENABLESTATE). -/
def REQ_CHANENABLESTATE : Id2 := (0x11, 0x02)

/-- Constant `GET: [u8; 2] = [0x12, 0x02]` (MOT_GET_CHANENABLESTATE). -/
def GET_CHANENABLESTATE : Id2 := (0x12, 0x02)

/-- Binding `enable_byte: u8 = if enable { 0x01 } else { 0x02 }`. -/
def enableByte (enable : Bool) : Nat :=
  if enable then 0x01 else 0x02

/-- The frames `__set_channel_enable_state(channel, enable)` submits on
the wire in the `Provenance::New` branch, in order: `short(SET, channel, 0)`
followed by `short(REQ, channel, 0)` (the latter sent by the nested
`__req_channel_enable_state` call).  The computed `enable_byte` does not
appear in either command. -/
def setChannelEnableStateCommands (channel : Nat) (enable : Bool) : List (List Nat) :=
  [short SET_CHANENABLESTATE channel 0, short REQ_CHANENABLESTATE channel 0]

/-- How `__req_channel_enable_state` interprets the GET_CHANENABLESTATE
response: `global_abort` (`none`) unless `response[2] == channel`, then
`response[3]` must be `0x01` (`true`) or `0x02` (`false`). -/
def reqChannelEnableStateResult (channel : Nat) (response : List Nat) : Option Bool :=
  if response.getD 2 0 ≠ channel then none
  else
    match response.getD 3 0 with
    | 0x01 => some true
    | 0x02 => some false
    | _ => none

/-- Whether `__set_channel_enable_state` returns normally (`some ()`)
once the GET response arrives: it aborts (`none`) when the reported state
is disabled while `enable` was requested. -/
def setChannelEnableStateOutcome (channel : Nat) (enable : Bool)
    (response : List Nat) : Option Unit :=
  match reqChannelEnableStateResult channel response with
  | none => none
  | some state => if !state && enable then none else some ()

/-! ### `Drop for UsbPrimitive` — `src/devices/usb_primitive/mod.rs` and
`src/devices/device_manager.rs` -/

/-- The commands issued by `UsbPrimitive::abort`.  The source body is
empty (`fn abort() { // todo()! }`), so no USB traffic and no registry
callback results from it. -/
def UsbPrimitive.abortCommands : List (List Nat) := []

/-- The global `DeviceManager`: serial number → abort callback token. -/
structure DeviceManager where
  devices : List (String × Nat)
  deriving DecidableEq

/-- Method `DeviceManager::remove(serial_number)`: delete the map entry without
invoking the stored callback. -/
def DeviceManager.remove (m : DeviceManager) (serialNumber : String) : DeviceManager :=
  ⟨m.devices.filter (fun e => e.1 != serialNumber)⟩

/-- Destructor `impl Drop for UsbPrimitive`: run `Self::abort()` (recording the
commands it issues), then `device_manager().await.remove(serial_number)`.
Returns the issued commands and the registry afterwards. -/
def dropUsbPrimitive (m : DeviceManager) (serialNumber : String) :
    List (List Nat) × DeviceManager :=
  (UsbPrimitive.abortCommands, m.remove serialNumber)

/-- A one-entry descriptor table used to evaluate the inbound task on
concrete data: MOT_MOVE_HOMED (`0x0444`, bytes `0x44, 0x04`) with the
header-only response length 6. -/
def sampleTable : Id2 → Option Nat :=
  fun id => if id = (0x44, 0x04) then some 6 else none

/-! ## Helper lemmas -/

theorem lookupSlot_setSlot_self (m : Slots) (id : Id2) (v w : Option Nat)
    (h : lookupSlot m id = some w) : lookupSlot (setSlot m id v) id = some v := by
  induction m with
  | nil => simp [lookupSlot] at h
  | cons kv rest ih =>
    obtain ⟨k, u⟩ := kv
    by_cases hk : k = id
    · subst hk
      simp [lookupSlot, setSlot]
    · simp only [lookupSlot, setSlot, if_neg hk] at h ⊢
      exact ih h

theorem setSlot_none_of_lookup_none (m : Slots) (id : Id2)
    (h : lookupSlot m id = some none) : setSlot m id none = m := by
  induction m with
  | nil => rfl
  | cons kv rest ih =>
    obtain ⟨k, u⟩ := kv
    by_cases hk : k = id
    · subst hk
      have hu : u = none := by simpa [lookupSlot] using h
      simp [setSlot, hu]
    · simp only [lookupSlot, if_neg hk] at h
      simp [setSlot, hk, ih h]

theorem reassemble_succ (tbl : Id2 → Option Nat) (fuel : Nat) (q : List Nat)
    (out : List (List Nat)) :
    reassemble tbl (fuel + 1) q out =
      if 6 ≤ q.length then
        match tbl (q.getD 0 0, q.getD 1 0) with
        | none => RunResult.abort
        | some len =>
          if q.length < len then RunResult.ok q out
          else reassemble tbl fuel (q.drop len) (out ++ [q.take len])
      else RunResult.ok q out := rfl

theorem reassemble_step (tbl : Id2 → Option Nat) (fuel : Nat) (q : List Nat)
    (out : List (List Nat)) (len : Nat) (h6 : 6 ≤ q.length)
    (htbl : tbl (q.getD 0 0, q.getD 1 0) = some len) :
    reassemble tbl (fuel + 1) q out =
      if q.length < len then RunResult.ok q out
      else reassemble tbl fuel (q.drop len) (out ++ [q.take len]) := by
  rw [reassemble_succ, if_pos h6, htbl]

theorem reassemble_abort (tbl : Id2 → Option Nat) (fuel : Nat) (q : List Nat)
    (out : List (List Nat)) (h6 : 6 ≤ q.length)
    (htbl : tbl (q.getD 0 0, q.getD 1 0) = none) :
    reassemble tbl (fuel + 1) q out = RunResult.abort := by
  rw [reassemble_succ, if_pos h6, htbl]

theorem reassemble_idle (tbl : Id2 → Option Nat) (fuel : Nat) (q : List Nat)
    (out : List (List Nat)) (h6 : ¬ 6 ≤ q.length) :
    reassemble tbl (fuel + 1) q out = RunResult.ok q out := by
  rw [reassemble_succ, if_neg h6]

theorem take_eq_of_append_eq (q r g u : List Nat) (h : q ++ r = g ++ u)
    (hg : g.length ≤ q.length) : q.take g.length = g := by
  have h1 : (q ++ r).take g.length = q.take g.length :=
    List.take_append_of_le_length hg
  rw [h, List.take_left] at h1
  exact h1.symm

/-- Draining whole frames from a buffer that is a prefix of a stream of
well-formed frames consumes exactly the fully buffered frames, in order,
and leaves a residual shorter than the next frame. -/
theorem reassemble_spec (tbl : Id2 → Option Nat) :
    ∀ (fuel : Nat) (gs : List (List Nat)) (q : List Nat) (out : List (List Nat)),
      (∀ f ∈ gs, WfFrame tbl f) →
      (∃ t, q ++ t = gs.flatten) →
      q.length < 6 * fuel →
      ∃ j q',
        j ≤ gs.length
        ∧ (gs.take j).flatten ++ q' = q
        ∧ reassemble tbl fuel q out = RunResult.ok q' (out ++ gs.take j)
        ∧ ShortRem (gs.drop j) q' := by
  intro fuel
  induction fuel with
  | zero =>
    intro gs q out _ _ hfuel
    omega
  | succ fuel ih =>
    intro gs q out hwf hpre hfuel
    by_cases h6 : 6 ≤ q.length
    · obtain ⟨t, ht⟩ := hpre
      cases gs with
      | nil =>
        exfalso
        simp only [List.flatten_nil] at ht
        have hq : q = [] := by
          cases q with
          | nil => rfl
          | cons a q => simp at ht
        rw [hq] at h6
        simp at h6
      | cons g gt =>
        have hgwf := hwf g (List.mem_cons_self g gt)
        have hg6 : 6 ≤ g.length := hgwf.1
        simp only [List.flatten_cons] at ht
        have h0 : q.getD 0 0 = g.getD 0 0 := by
          have e1 := List.getD_append q t 0 0 (by omega)
          have e2 := List.getD_append g gt.flatten 0 0 (by omega)
          rw [ht] at e1
          rw [← e1, e2]
        have h1 : q.getD 1 0 = g.getD 1 0 := by
          have e1 := List.getD_append q t 0 1 (by omega)
          have e2 := List.getD_append g gt.flatten 0 1 (by omega)
          rw [ht] at e1
          rw [← e1, e2]
        have htbl : tbl (q.getD 0 0, q.getD 1 0) = some g.length := by
          rw [h0, h1]
          exact hgwf.2
        rw [reassemble_step tbl fuel q out g.length h6 htbl]
        by_cases hlen : q.length < g.length
        · rw [if_pos hlen]
          refine ⟨0, q, Nat.zero_le _, by simp, by simp, ?_, ?_⟩
          · exact ⟨t, by simpa using ht⟩
          · intro g' gt' heq
            rw [List.drop_zero] at heq
            cases heq
            exact hlen
        · rw [if_neg hlen]
          push_neg at hlen
          have htake : q.take g.length = g := take_eq_of_append_eq q t g gt.flatten ht hlen
          have hq : q = g ++ q.drop g.length := by
            conv_lhs => rw [← List.take_append_drop g.length q, htake]
          have hdpre : q.drop g.length ++ t = gt.flatten := by
            have h2 : g ++ (q.drop g.length ++ t) = g ++ gt.flatten := by
              rw [← List.append_assoc, ← hq, ht]
            exact List.append_cancel_left h2
          have hdfuel : (q.drop g.length).length < 6 * fuel := by
            rw [List.length_drop]
            omega
          obtain ⟨j, q', hj, hjoin, hrun, hshort⟩ :=
            ih gt (q.drop g.length) (out ++ [g])
              (fun f hf => hwf f (List.mem_cons_of_mem g hf)) ⟨t, hdpre⟩ hdfuel
          rw [htake]
          refine ⟨j + 1, q', by simpa using hj, ?_, ?_, ?_⟩
          · simp only [List.take_succ_cons, List.flatten_cons, List.append_assoc]
            rw [hjoin]
            exact hq.symm
          · rw [hrun]
            simp [List.take_succ_cons, List.append_assoc]
          · simpa only [List.drop_succ_cons] using hshort
    · refine ⟨0, q, Nat.zero_le _, by simp, ?_, ?_, ?_⟩
      · cases fuel_eq : fuel + 1 with
        | zero => omega
        | succ n =>
          rw [← fuel_eq]
          rw [show fuel + 1 = fuel + 1 from rfl]
          rw [reassemble_idle tbl fuel q out h6]
          simp
      · simpa only [List.drop_zero] using hpre
      · intro g gt heq
        rw [List.drop_zero] at heq
        subst heq
        have := (hwf g (List.mem_cons_self g gt)).1
        omega

theorem listen_skip (tbl : Id2 → Option Nat) (buffer : List Nat)
    (rest : List (List Nat)) (q : List Nat) (out : List (List Nat))
    (h : ¬ 2 < buffer.length) :
    listen tbl (buffer :: rest) q out = listen tbl rest q out := by
  simp only [listen, if_neg h]

theorem listen_drain (tbl : Id2 → Option Nat) (buffer : List Nat)
    (rest : List (List Nat)) (q : List Nat) (out : List (List Nat))
    (q' : List Nat) (out' : List (List Nat)) (h : 2 < buffer.length)
    (hrun : reassemble tbl ((q ++ buffer.drop 2).length + 1) (q ++ buffer.drop 2) out
      = RunResult.ok q' out') :
    listen tbl (buffer :: rest) q out = listen tbl rest q' out' := by
  simp only [listen, if_pos h, hrun]

/-- Feeding the outer loop completions that carry a two-byte prefix and a
slice of the remaining frame stream dispatches every remaining frame. -/
theorem listen_spec (tbl : Id2 → Option Nat) :
    ∀ (ss : List (List Nat)) (ps : List (Nat × Nat)) (gs : List (List Nat))
      (q : List Nat) (out : List (List Nat)),
      (∀ f ∈ gs, WfFrame tbl f) →
      ps.length = ss.length →
      q ++ ss.flatten = gs.flatten →
      ShortRem gs q →
      listen tbl (List.zipWith (fun p s => p.1 :: p.2 :: s) ps ss) q out
        = RunResult.ok [] (out ++ gs) := by
  intro ss
  induction ss with
  | nil =>
    intro ps gs q out hwf hlen hbytes hshort
    rw [List.zipWith_nil_right]
    cases gs with
    | nil =>
      simp only [List.flatten_nil, List.append_nil] at hbytes
      subst hbytes
      simp [listen]
    | cons g gt =>
      exfalso
      have hlt := hshort.2 g gt rfl
      simp only [List.flatten_nil, List.append_nil, List.flatten_cons] at hbytes
      have := congrArg List.length hbytes
      simp only [List.length_append] at this
      omega
  | cons s ss ih =>
    intro ps gs q out hwf hlen hbytes hshort
    cases ps with
    | nil => simp at hlen
    | cons p ps =>
      simp only [List.length_cons] at hlen
      have hlen' : ps.length = ss.length := by omega
      rw [List.zipWith_cons_cons]
      simp only [List.flatten_cons] at hbytes
      by_cases hs : 2 < (p.1 :: p.2 :: s).length
      · have hq1pre : ∃ t, (q ++ s) ++ t = gs.flatten :=
          ⟨ss.flatten, by rw [List.append_assoc]; exact hbytes⟩
        obtain ⟨j, q', hj, hjoin, hrun, hshort'⟩ :=
          reassemble_spec tbl ((q ++ s).length + 1) gs (q ++ s) out hwf hq1pre (by omega)
        rw [listen_drain tbl (p.1 :: p.2 :: s) _ q out q' (out ++ gs.take j) hs hrun]
        have hbytes' : q' ++ ss.flatten = (gs.drop j).flatten := by
          have h2 : (gs.take j).flatten ++ (q' ++ ss.flatten)
              = (gs.take j).flatten ++ (gs.drop j).flatten := by
            rw [← List.append_assoc, hjoin, List.append_assoc, hbytes,
              ← List.flatten_append, List.take_append_drop]
          exact List.append_cancel_left h2
        have hrec := ih ps (gs.drop j) q' (out ++ gs.take j)
          (fun f hf => hwf f (List.mem_of_mem_drop hf)) hlen' hbytes' hshort'
        rw [hrec, List.append_assoc, List.take_append_drop]
      · have hs0 : s = [] := by
          simp only [List.length_cons] at hs
          exact List.eq_nil_of_length_eq_zero (by omega)
        subst hs0
        rw [listen_skip tbl (p.1 :: p.2 :: []) _ q out hs]
        exact ih ps gs q out hwf hlen' (by simpa using hbytes) hshort

theorem long_getD2 (id : Nat × Nat) (data : List Nat) :
    (long id data).getD 2 0 = data.length % 65536 % 256 := rfl

theorem long_getD3 (id : Nat × Nat) (data : List Nat) :
    (long id data).getD 3 0 = data.length % 65536 / 256 := rfl

theorem long_getD4 (id : Nat × Nat) (data : List Nat) :
    (long id data).getD 4 0 = 0xD0 := by
  simp only [long, List.cons_append, List.nil_append, List.getD_cons_succ,
    List.getD_cons_zero]
  decide

theorem long_getD5 (id : Nat × Nat) (data : List Nat) :
    (long id data).getD 5 0 = 0x01 := by
  simp only [long, List.cons_append, List.nil_append, List.getD_cons_succ,
    List.getD_cons_zero]
  decide

theorem long_le_value (id : Nat × Nat) (data : List Nat) :
    (long id data).getD 2 0 + 256 * (long id data).getD 3 0 = data.length % 65536 := by
  rw [long_getD2, long_getD3]
  exact Nat.mod_add_div (data.length % 65536) 256

theorem long_length (id : Nat × Nat) (data : List Nat) :
    (long id data).length = 6 + data.length := by
  unfold long
  rw [List.length_append]
  rfl

theorem long_drop6 (id : Nat × Nat) (data : List Nat) :
    (long id data).drop 6 = data := rfl

/-! ## Claim theorems -/

/-- C2: after `Dispatcher::dispatch(frame)` returns, the slot for the
frame's two-byte ID holds `None`, so a subsequent `receiver(id)` returns
`Provenance::New`; and if the slot already held `None`, the frame is
dropped without broadcasting and the map is unchanged. -/
theorem c2_take_before_broadcast (m : Slots) (b0 b1 : Nat) (rest : List Nat)
    (w : Option Nat) (fresh : Nat) (hreg : lookupSlot m (b0, b1) = some w) :
    ∃ m' bc, Dispatcher.dispatch m (b0 :: b1 :: rest) = some (m', bc)
      ∧ lookupSlot m' (b0, b1) = some none
      ∧ Dispatcher.receiver m' (b0, b1) fresh
          = some (setSlot m' (b0, b1) (some fresh), Provenance.New fresh)
      ∧ (w = none → m' = m ∧ bc = none) := by
  cases w with
  | none =>
    have hm : setSlot m (b0, b1) none = m := setSlot_none_of_lookup_none m _ hreg
    refine ⟨m, none, ?_, hreg, ?_, fun _ => ⟨rfl, rfl⟩⟩
    · simp [Dispatcher.dispatch, Dispatcher.take, hreg, hm]
    · simp [Dispatcher.receiver, hreg]
  | some tx =>
    have h2 := lookupSlot_setSlot_self m (b0, b1) none _ hreg
    refine ⟨setSlot m (b0, b1) none, some (tx, b0 :: b1 :: rest), ?_, h2, ?_, by simp⟩
    · simp [Dispatcher.dispatch, Dispatcher.take, hreg]
    · simp [Dispatcher.receiver, h2]

/-- C2 witness: a dispatch on a registered ID with a waiting sender. -/
theorem c2_witness :
    ∃ m' bc,
      Dispatcher.dispatch [((0x44, 0x04), some 7)] [0x44, 0x04, 0x00, 0x00, 0x50, 0x01]
          = some (m', bc)
        ∧ lookupSlot m' (0x44, 0x04) = some none
        ∧ Dispatcher.receiver m' (0x44, 0x04) 9
            = some (setSlot m' (0x44, 0x04) (some 9), Provenance.New 9)
        ∧ (some 7 = none → m' = [((0x44, 0x04), some 7)] ∧ bc = none) :=
  c2_take_before_broadcast [((0x44, 0x04), some 7)] 0x44 0x04 [0x00, 0x00, 0x50, 0x01]
    (some 7) 9 (by decide)

/-- C4: calling `__home(channel = 1)` submits the frame
`[0x44, 0x04, 0x01, 0x00, 0x50, 0x01]` — it builds the outbound command
from the response ID `0x0444` instead of the MOT_MOVE_HOME ID `0x0443`,
so the wire frame differs from the specified
`[0x43, 0x04, 0x01, 0x00, 0x50, 0x01]` (while the awaited response ID is
`0x0444` as specified). -/
theorem c4_home_sends_response_id :
    homeCommand 1 = [0x44, 0x04, 0x01, 0x00, 0x50, 0x01]
    ∧ homeCommand 1 ≠ [0x43, 0x04, 0x01, 0x00, 0x50, 0x01]
    ∧ homeAwaitId = (0x44, 0x04) := by
  decide

/-- C5: calling `__set_channel_enable_state(1, true)` sends
`short(SET, channel, 0)` — byte 3 of the first frame is `0x00`, not the
computed `enable_byte = 0x01` — followed by `short(REQ, channel, 0)`;
the call returns normally when the GET response carries byte 2 = channel
and byte 3 = `0x01`, and aborts when the reported state is `0x02` while
enabling was requested. -/
theorem c5_set_enable_state_omits_enable_byte :
    setChannelEnableStateCommands 1 true
        = [[0x10, 0x02, 0x01, 0x00, 0x50, 0x01], [0x11, 0x02, 0x01, 0x00, 0x50, 0x01]]
    ∧ setChannelEnableStateCommands 1 true
        ≠ [[0x10, 0x02, 0x01, 0x01, 0x50, 0x01], [0x11, 0x02, 0x01, 0x00, 0x50, 0x01]]
    ∧ enableByte true = 0x01
    ∧ setChannelEnableStateOutcome 1 true [0x12, 0x02, 0x01, 0x01, 0x50, 0x01] = some ()
    ∧ setChannelEnableStateOutcome 1 true [0x12, 0x02, 0x01, 0x02, 0x50, 0x01] = none := by
  decide

/-- C6 counterexample: at a payload of 65536 bytes the length field of
`long` holds 0, not the payload length, so bytes 2 and 3 are not the
payload length in little-endian. -/
theorem c6_counterexample :
    (List.replicate 65536 (0 : Nat)).length = 65536
    ∧ (long (0x53, 0x04) (List.replicate 65536 0)).getD 2 0
        + 256 * (long (0x53, 0x04) (List.replicate 65536 0)).getD 3 0 = 0
    ∧ (long (0x53, 0x04) (List.replicate 65536 0)).getD 2 0
        + 256 * (long (0x53, 0x04) (List.replicate 65536 0)).getD 3 0
        ≠ (List.replicate 65536 (0 : Nat)).length := by
  have h := long_le_value (0x53, 0x04) (List.replicate 65536 0)
  rw [List.length_replicate, Nat.mod_self] at h
  refine ⟨by rw [List.length_replicate], h, ?_⟩
  rw [h, List.length_replicate]
  omega

/-- C6 (amended): `short(id, p1, p2)` is exactly
`[id[0], id[1], p1, p2, 0x50, 0x01]`; `long(id, payload)` yields
`6 + N` bytes whose bytes 2 and 3 hold `N % 65536` in little-endian
(equal to `N` whenever `N < 65536`), whose byte 4 is `0xD0`, whose byte 5
is `0x01`, and whose remaining bytes are the payload unchanged. -/
theorem c6_short_long_framing (id : Nat × Nat) (p1 p2 : Nat) (data : List Nat) :
    short id p1 p2 = [id.1, id.2, p1, p2, 0x50, 0x01]
    ∧ (long id data).length = 6 + data.length
    ∧ (long id data).getD 2 0 + 256 * (long id data).getD 3 0 = data.length % 65536
    ∧ (data.length < 65536 →
        (long id data).getD 2 0 + 256 * (long id data).getD 3 0 = data.length)
    ∧ (long id data).getD 4 0 = 0xD0
    ∧ (long id data).getD 5 0 = 0x01
    ∧ (long id data).drop 6 = data := by
  refine ⟨rfl, long_length id data, long_le_value id data, ?_, long_getD4 id data,
    long_getD5 id data, long_drop6 id data⟩
  intro h
  rw [long_le_value id data, Nat.mod_eq_of_lt h]

/-- C6 witness: the amended framing law at a concrete three-byte
payload. -/
theorem c6_witness :
    (long (0x53, 0x04) [7, 8, 9]).getD 2 0
      + 256 * (long (0x53, 0x04) [7, 8, 9]).getD 3 0 = 3 :=
  (c6_short_long_framing (0x53, 0x04) 0 0 [7, 8, 9]).2.2.2.1 (by decide)

/-- C7: dropping a `UsbPrimitive` issues no commands at all —
`UsbPrimitive::abort` has an empty body (`// todo()!`) — and removes the
serial number from the device registry without invoking its callback. -/
theorem c7_drop_abort_is_stub :
    UsbPrimitive.abortCommands = []
    ∧ (dropUsbPrimitive ⟨[("27123456", 5)]⟩ "27123456").1 = []
    ∧ (dropUsbPrimitive ⟨[("27123456", 5)]⟩ "27123456").2 = ⟨[]⟩ := by
  decide

/-- C8: function `check_serial_number` accepts exactly the serials that start
with the model prefix, have length 8, and are all numeric; in
particular, with prefix "27", "27123456" is accepted while "21123456",
"2712345" and "271234ab" are rejected. -/
theorem c8_check_serial_number :
    (∀ (isNumeric : Char → Bool) (p s : List Char),
      check_serial_number isNumeric p s = Except.ok ()
        ↔ p.isPrefixOf s ∧ s.length = 8 ∧ s.all isNumeric)
    ∧ check_serial_number Char.isDigit "27".toList "27123456".toList = Except.ok ()
    ∧ check_serial_number Char.isDigit "27".toList "21123456".toList
        = Except.error (SnError.invalid "21123456".toList)
    ∧ check_serial_number Char.isDigit "27".toList "2712345".toList
        = Except.error (SnError.invalid "2712345".toList)
    ∧ check_serial_number Char.isDigit "27".toList "271234ab".toList
        = Except.error (SnError.invalid "271234ab".toList) := by
  refine ⟨fun isNumeric p s => ?_, by rfl, by rfl, by rfl, by rfl⟩
  constructor
  · intro h
    by_cases hc : (p.isPrefixOf s && s.length == 8 && s.all isNumeric) = true
    · simp only [Bool.and_eq_true, beq_iff_eq] at hc
      exact ⟨hc.1.1, hc.1.2, hc.2⟩
    · simp [check_serial_number, hc] at h
  · rintro ⟨h1, h2, h3⟩
    simp [check_serial_number, h1, h2, h3]

/-- C8 witness: the acceptance side at the concrete serial "27123456". -/
theorem c8_witness :
    check_serial_number Char.isDigit "27".toList "27123456".toList = Except.ok () :=
  (c8_check_serial_number.1 Char.isDigit "27".toList "27123456".toList).mpr (by decide)

/-- C9: method `UsbPrimitive::close` returns `Ok(())` in every state: an `Open`
device transitions to `Closed` retaining the communicator's dispatcher,
an already-`Closed` device is left untouched, and neither path can
produce the `io::Error` value. -/
theorem c9_close_never_errs :
    (∀ status : Status, (UsbPrimitive.close status).2 = Except.ok ())
    ∧ (∀ c : Communicator,
        UsbPrimitive.close (Status.Open c) = (Status.Closed c.dispatcher, Except.ok ()))
    ∧ (∀ d : Slots,
        UsbPrimitive.close (Status.Closed d) = (Status.Closed d, Except.ok ())) := by
  refine ⟨fun status => ?_, fun c => rfl, fun d => rfl⟩
  cases status <;> rfl

/-- C9 witness: closing an open device with a one-entry dispatcher. -/
theorem c9_witness :
    (UsbPrimitive.close (Status.Open ⟨[((0x44, 0x04), none)]⟩)).2 = Except.ok () :=
  c9_close_never_errs.1 (Status.Open ⟨[((0x44, 0x04), none)]⟩)

/-- C10: the length field of `long` is the payload length reduced modulo
65536 — exact below 65536, silently wrapping at or above it — while the
payload is appended in full either way. -/
theorem c10_long_length_field_wraps (id : Nat × Nat) (data : List Nat) :
    (long id data).getD 2 0 = data.length % 65536 % 256
    ∧ (long id data).getD 3 0 = data.length % 65536 / 256
    ∧ (long id data).getD 2 0 + 256 * (long id data).getD 3 0 = data.length % 65536
    ∧ (data.length < 65536 →
        (long id data).getD 2 0 + 256 * (long id data).getD 3 0 = data.length)
    ∧ (65536 ≤ data.length →
        (long id data).getD 2 0 + 256 * (long id data).getD 3 0 ≠ data.length)
    ∧ (long id data).drop 6 = data
    ∧ (long id data).length = 6 + data.length := by
  refine ⟨long_getD2 id data, long_getD3 id data, long_le_value id data, ?_, ?_,
    long_drop6 id data, long_length id data⟩
  · intro h
    rw [long_le_value id data, Nat.mod_eq_of_lt h]
  · intro h
    rw [long_le_value id data]
    have := Nat.mod_lt data.length (by omega : 0 < 65536)
    omega

/-- C1: delivering the concatenation of M well-formed, registered frames
to the inbound task, sliced at arbitrary byte boundaries over any number
of bulk-transfer completions — each carrying two FTDI prefix bytes that
are skipped, completions of fewer than three bytes being discarded
whole — dispatches exactly the M frames, whole and in the original
order, leaving an empty ring buffer. -/
theorem c1_reassembly (tbl : Id2 → Option Nat) (fs ss : List (List Nat))
    (ps : List (Nat × Nat))
    (hwf : ∀ f ∈ fs, WfFrame tbl f)
    (hlen : ps.length = ss.length)
    (hbytes : ss.flatten = fs.flatten) :
    listen tbl (List.zipWith (fun p s => p.1 :: p.2 :: s) ps ss) [] []
      = RunResult.ok [] fs := by
  have hshort : ShortRem fs [] := by
    refine ⟨⟨fs.flatten, by simp⟩, fun g gt heq => ?_⟩
    subst heq
    have := (hwf g (List.mem_cons_self g gt)).1
    simp only [List.length_nil]
    omega
  have h := listen_spec tbl ss ps fs [] [] hwf hlen (by simpa using hbytes) hshort
  simpa using h

/-- C1 witness: one MOT_MOVE_HOMED frame delivered over three
completions sliced mid-frame (the spec's scenario S4). -/
theorem c1_witness :
    listen sampleTable
        (List.zipWith (fun (p : Nat × Nat) s => p.1 :: p.2 :: s)
          [(0xff, 0xff), (0xff, 0xff), (0xff, 0xff)]
          [[0x44], [0x04, 0x00], [0x00, 0x50, 0x01]])
        [] []
      = RunResult.ok [] [[0x44, 0x04, 0x00, 0x00, 0x50, 0x01]] :=
  c1_reassembly sampleTable [[0x44, 0x04, 0x00, 0x00, 0x50, 0x01]]
    [[0x44], [0x04, 0x00], [0x00, 0x50, 0x01]]
    [(0xff, 0xff), (0xff, 0xff), (0xff, 0xff)]
    (by decide) rfl rfl

/-- C3: a buffered frame whose leading two bytes are not a key of the
descriptor table makes the inbound task invoke `global_abort`
(the `RunResult.abort` outcome); and every invocation of `global_abort`
drains the device registry, invokes every registered abort callback, and
terminates by panicking. -/
theorem c3_unknown_id_global_abort :
    (∀ (tbl : Id2 → Option Nat) (fuel : Nat) (q : List Nat) (out : List (List Nat)),
        6 ≤ q.length → tbl (q.getD 0 0, q.getD 1 0) = none →
        reassemble tbl (fuel + 1) q out = RunResult.abort)
    ∧ ∀ (registry : List (String × Nat)) (message : String),
        (global_abort registry message).invoked = registry.map Prod.snd
        ∧ (global_abort registry message).registryAfter = []
        ∧ (global_abort registry message).panicked = true :=
  ⟨fun tbl fuel q out h6 htbl => reassemble_abort tbl fuel q out h6 htbl,
    fun _ _ => ⟨rfl, rfl, rfl⟩⟩

/-- C3 witness: the spec's scenario S5 — the unregistered ID `0xCDAB`
triggers the abort path; a one-device registry is drained, its callback
runs, and the call panics. -/
theorem c3_witness :
    reassemble sampleTable 1 [0xAB, 0xCD, 0x00, 0x00, 0x50, 0x01] [] = RunResult.abort
    ∧ (global_abort [("27123456", 5)] "desync").invoked = [5]
    ∧ (global_abort [("27123456", 5)] "desync").registryAfter = []
    ∧ (global_abort [("27123456", 5)] "desync").panicked = true :=
  ⟨c3_unknown_id_global_abort.1 sampleTable 0 [0xAB, 0xCD, 0x00, 0x00, 0x50, 0x01] []
      (by decide) (by decide),
    (c3_unknown_id_global_abort.2 [("27123456", 5)] "desync").1,
    (c3_unknown_id_global_abort.2 [("27123456", 5)] "desync").2.1,
    (c3_unknown_id_global_abort.2 [("27123456", 5)] "desync").2.2⟩

/-- C10 witness: the wrap inequality at a 70000-byte payload. -/
theorem c10_witness :
    (long (1, 2) (List.replicate 70000 (5 : Nat))).getD 2 0
      + 256 * (long (1, 2) (List.replicate 70000 (5 : Nat))).getD 3 0
      ≠ (List.replicate 70000 (5 : Nat)).length :=
  (c10_long_length_field_wraps (1, 2) (List.replicate 70000 5)).2.2.2.2.1
    (by rw [List.length_replicate]; omega)

end Thormotion
